import Mathlib

/-!
Verification of the session / notification layer declared in
cppForSwig/BDM_Server.h (BitcoinArmory).

The header defines the SocketCallback liveness state machine, the
BDV_Server_Object session skeleton, and the Clients orchestrator whose
constructor is given inline.  Those inline bodies are embedded directly
from the source; member functions whose bodies live outside the header
(registerBDV, unregisterBDV, get, shutdown, executeCommand,
registerWallet, registerLockbox) are modelled from the spec, each marked
so in its doc comment.

Part 1 gives all definitions, part 2 the lemmas and theorems.
-/

/-! ## Part 1: definitions -/

/-- Domain of the C++ type `unsigned` (32-bit): 2^32. -/
def UINT_MOD : Nat := 4294967296

/-- Source: `#define CALLBACK_EXPIRE_COUNT 5` (BDM_Server.h line 30). -/
def CALLBACK_EXPIRE_COUNT : Nat := 5

/-- Embeds `class SocketCallback` (BDM_Server.h lines 39-84): the one piece
of mutable state relevant to the liveness protocol is the atomic unsigned
counter `count_`. -/
structure SocketCallback where
  count : Nat
  deriving Repr, DecidableEq

namespace SocketCallback

/-- Embeds the constructor (lines 48-52): `count_.store(0)`. -/
def mk0 : SocketCallback := ⟨0⟩

/-- Embeds `SocketCallback::isValid` (lines 57-69).  The outcome of
`lock.try_lock()` is an input of the model (`lockAcquired`).  When the lock
is acquired, `count_.fetch_add(1) + 1` increments the unsigned counter
(wrapping mod 2^32) and the function returns false iff the incremented
value has reached `CALLBACK_EXPIRE_COUNT`; otherwise it returns true with
the counter untouched.  Returns (result, updated callback). -/
def isValid (cb : SocketCallback) (lockAcquired : Bool) :
    Bool × SocketCallback :=
  if lockAcquired then
    let count := (cb.count + 1) % UINT_MOD
    if count ≥ CALLBACK_EXPIRE_COUNT then
      (false, ⟨count⟩)
    else
      (true, ⟨count⟩)
  else
    (true, cb)

/-- Embeds `SocketCallback::resetCounter` (lines 80-83):
`count_.store(0)`. -/
def resetCounter (_cb : SocketCallback) : SocketCallback := ⟨0⟩

/-- State after n further consecutive lock-acquiring `isValid` calls,
starting from callback state cb. -/
def isValidRunsFrom (cb : SocketCallback) : Nat → SocketCallback
  | 0 => cb
  | n + 1 => ((cb.isValidRunsFrom n).isValid true).2

/-- State after n consecutive lock-acquiring `isValid` calls on a freshly
constructed callback. -/
def isValidRuns (n : Nat) : SocketCallback :=
  mk0.isValidRunsFrom n

/-- Result of the n-th (1-indexed) consecutive lock-acquiring `isValid`
call on a freshly constructed callback. -/
def nthCallResult (n : Nat) : Bool :=
  ((isValidRuns (n - 1)).isValid true).1

end SocketCallback

/-! ### The SocketCallback destructor (lines 71-78)

The destructor first calls `Callback::shutdown()` and then acquires the
probe mutex `mu_` with a plain (blocking) `unique_lock`, so that it cannot
finish while a responder thread still holds the probe lock.  The
interleaving of the destructor with a responder thread that acquires and
releases `mu_` (as `respond`/`isValid` do) is modelled as a small
transition system. -/

/-- Who currently holds the probe mutex `mu_`. -/
inductive MutexHolder where
  | nobody
  | responder
  | destructor
  deriving Repr, DecidableEq

/-- Progress of `~SocketCallback`: not yet run; `Callback::shutdown()`
issued (line 73); probe mutex acquired, destruction complete (line 77). -/
inductive DtorPhase where
  | started
  | signaled
  | lockedDone
  deriving Repr, DecidableEq

/-- Joint state of the destructor and the probe mutex. -/
structure SCDtorState where
  phase : DtorPhase
  shutdownSignaled : Bool
  holder : MutexHolder
  deriving Repr, DecidableEq

/-- Interleaved steps of the destructor thread and a responder thread.
The destructor signals shutdown first and only then acquires the mutex;
the blocking acquisition can fire only when nobody holds the mutex.  The
responder may acquire and release the mutex at any time it is free.  The
destructor never releases the mutex (it holds it to the end of the
destructor body). -/
inductive SCDtorStep : SCDtorState → SCDtorState → Prop where
  | signal (f : Bool) (h : MutexHolder) :
      SCDtorStep ⟨.started, f, h⟩ ⟨.signaled, true, h⟩
  | lock (f : Bool) :
      SCDtorStep ⟨.signaled, f, .nobody⟩ ⟨.lockedDone, f, .destructor⟩
  | responderAcquire (p : DtorPhase) (f : Bool) :
      SCDtorStep ⟨p, f, .nobody⟩ ⟨p, f, .responder⟩
  | responderRelease (p : DtorPhase) (f : Bool) :
      SCDtorStep ⟨p, f, .responder⟩ ⟨p, f, .nobody⟩

/-- States reachable when the destructor starts, whether or not an
in-flight responder holds the probe mutex at that moment. -/
inductive SCDtorReach : SCDtorState → Prop where
  | initFree : SCDtorReach ⟨.started, false, .nobody⟩
  | initHeld : SCDtorReach ⟨.started, false, .responder⟩
  | step (s t : SCDtorState) :
      SCDtorReach s → SCDtorStep s t → SCDtorReach t

/-! ### Association-list maps

The header uses `std::map` (`methodMap_`, `wltRegMap_`) and a
`TransactionalMap` (the registry `BDVs_`); both keep at most one entry per
key, insertion overwrites, lookup finds the unique entry.  They are
modelled as association lists with overwrite-on-insert. -/

/-- Find the value stored under key k, if any. -/
def assocLookup {κ α : Type} [DecidableEq κ] (k : κ) :
    List (κ × α) → Option α
  | [] => none
  | e :: rest => if e.1 = k then some e.2 else assocLookup k rest

/-- Remove every entry stored under key k. -/
def assocErase {κ α : Type} [DecidableEq κ] (k : κ) :
    List (κ × α) → List (κ × α)
  | [] => []
  | e :: rest =>
    if e.1 = k then assocErase k rest else e :: assocErase k rest

/-- Map/overwrite semantics of `std::map` insertion: the new entry
replaces any entry previously stored under the same key. -/
def assocInsert {κ α : Type} [DecidableEq κ] (k : κ) (v : α)
    (m : List (κ × α)) : List (κ × α) :=
  (k, v) :: assocErase k m

/-- Number of entries stored under key k. -/
def assocKeyCount {κ α : Type} [DecidableEq κ] (k : κ)
    (m : List (κ × α)) : Nat :=
  m.countP (fun e => decide (e.1 = k))

/-! ### BDV_Server_Object (lines 87-151) -/

/-- A raw script-address byte string (`BinaryData`), modelled as its list
of bytes. -/
def BinaryData : Type := List Nat

/-- The opaque wire value used for command arguments and results
(`Arguments`); the spec treats it as an opaque typed value, modelled here
as a tagged list of payload strings. -/
structure Arguments where
  payload : List String

/-- Source: `enum WalletType` (lines 32-36). -/
inductive WalletType where
  | TypeWallet
  | TypeLockbox
  deriving Repr, DecidableEq

/-- Source: `struct walletRegStruct` (lines 103-109), the Pending
Registration Record. -/
structure walletRegStruct where
  scrAddrVec : List BinaryData
  IDstr : String
  isNew : Bool
  type_ : WalletType

/-- Embeds the state of `class BDV_Server_Object` used by the claims:
the session id `bdvID_` (an opaque server-generated token, modelled as a
Nat), the dispatch table `methodMap_`, the pending wallet-registration map
`wltRegMap_` (guarded in the source by `registerWalletMutex_`), and the
optional liveness callback `cb_` (a possibly-null shared_ptr). -/
structure BDV_Server_Object where
  bdvID : Nat
  methodMap : List (String × (List String → Arguments → Arguments))
  wltRegMap : List (String × walletRegStruct)
  cb : Option SocketCallback

/-- Outcome of `executeCommand`: the wire envelope either carries the
result of the invoked handler or encodes an unknown-method error. -/
inductive CommandOutcome where
  | result (args : Arguments)
  | unknownMethodError (method : String)

namespace BDV_Server_Object

/-- Embeds `BDV_Server_Object::resetCounter` (lines 129-133): the null
check `if (cb_ != nullptr)` becomes a match on the optional callback; the
none branch performs no dereference and leaves the session unchanged. -/
def resetCounter (bdv : BDV_Server_Object) : BDV_Server_Object :=
  match bdv.cb with
  | none => bdv
  | some c => { bdv with cb := some c.resetCounter }

/-- Modelled from the spec: the body of `BDV_Server_Object::executeCommand`
(declared at lines 146-148) is not in the header.  Spec: looks up method
in the dispatch table; fails with an unknown-method result if absent;
otherwise invokes the handler with ids and args and returns its result. -/
def executeCommand (bdv : BDV_Server_Object) (method : String)
    (ids : List String) (args : Arguments) : CommandOutcome :=
  match assocLookup method bdv.methodMap with
  | none => .unknownMethodError method
  | some handler => .result (handler ids args)

/-- Modelled from the spec: the bodies of
`BDV_Server_Object::registerWallet` and `registerLockbox` (declared at
lines 123-126) are not in the header.  Spec: under the session
registration lock, insert or overwrite the Pending Registration Record
for the id; returns failure only on malformed input, e.g. an empty id.
Both functions fill the same `walletRegStruct` shape and differ only in
the stored `WalletType`, so they share this helper. -/
def registerWalletKind (bdv : BDV_Server_Object)
    (scrAddrVec : List BinaryData) (IDstr : String) (wltIsNew : Bool)
    (kind : WalletType) : Bool × BDV_Server_Object :=
  if IDstr = "" then
    (false, bdv)
  else
    (true, { bdv with
      wltRegMap :=
        assocInsert IDstr ⟨scrAddrVec, IDstr, wltIsNew, kind⟩
          bdv.wltRegMap })

/-- Modelled from the spec: `registerWallet` records a pending
registration of kind `TypeWallet`. -/
def registerWallet (bdv : BDV_Server_Object)
    (scrAddrVec : List BinaryData) (IDstr : String) (wltIsNew : Bool) :
    Bool × BDV_Server_Object :=
  bdv.registerWalletKind scrAddrVec IDstr wltIsNew .TypeWallet

/-- Modelled from the spec: `registerLockbox` records a pending
registration of kind `TypeLockbox`. -/
def registerLockbox (bdv : BDV_Server_Object)
    (scrAddrVec : List BinaryData) (IDstr : String) (wltIsNew : Bool) :
    Bool × BDV_Server_Object :=
  bdv.registerWalletKind scrAddrVec IDstr wltIsNew .TypeLockbox

end BDV_Server_Object

/-! ### The Clients orchestrator (lines 173-252) -/

/-- Database type returned by `BlockDataManagerConfig::getDbType()`; only
the distinction between `ARMORY_DB_SUPER` and the rest matters to the
header. -/
inductive ARMORY_DB_TYPE where
  | ARMORY_DB_BARE
  | ARMORY_DB_FULL
  | ARMORY_DB_SUPER
  deriving Repr, DecidableEq

/-- Node type carried by the BDM config; only the distinction between
`Node_UnitTest` and the rest matters to the header. -/
inductive NODE_TYPE where
  | Node_BTC
  | Node_UnitTest
  deriving Repr, DecidableEq

/-- Embeds the inner-thread-count computation of the Clients constructor
(lines 228-231).  Line 231 reads
`innerThreadCount == thread::hardware_concurrency();` — an equality
comparison whose result is discarded, not an assignment — so
`innerThreadCount` keeps its initial value 2 on every path. -/
def clientsInnerThreadCount (dbType : ARMORY_DB_TYPE)
    (nodeType : NODE_TYPE) (hardwareConcurrency : Nat) : Nat :=
  let innerThreadCount : Nat := 2
  let _discardedComparison : Bool :=
    if dbType = .ARMORY_DB_SUPER ∧ nodeType ≠ .Node_UnitTest then
      innerThreadCount == hardwareConcurrency
    else
      true
  innerThreadCount

/-- The inner-thread count the spec describes (what line 231 was clearly
meant to compute with `=` instead of `==`): the hardware parallelism in
full-indexing mode (supernode database with a non-unit-test node), 2 in
constrained/test mode. -/
def specInnerThreadCount (dbType : ARMORY_DB_TYPE) (nodeType : NODE_TYPE)
    (hardwareConcurrency : Nat) : Nat :=
  if dbType = .ARMORY_DB_SUPER ∧ nodeType ≠ .Node_UnitTest then
    hardwareConcurrency
  else
    2

/-- Role of each thread pushed into `controlThreads_` by the Clients
constructor. -/
inductive ThreadRole where
  | command
  | outerMaintenance
  | innerMaintenance
  | gc
  deriving Repr, DecidableEq

/-- Embeds the `controlThreads_` population of the Clients constructor
(lines 225-242): the command thread and the outer maintenance thread, then
`innerThreadCount` inner maintenance threads; finally, unless the node
type is `Node_UnitTest` (early return at lines 238-240, comment: no gc for
unit tests), the garbage collector thread. -/
def clientsControlThreads (dbType : ARMORY_DB_TYPE)
    (nodeType : NODE_TYPE) (hardwareConcurrency : Nat) : List ThreadRole :=
  let base := [ThreadRole.command, ThreadRole.outerMaintenance] ++
    List.replicate (clientsInnerThreadCount dbType nodeType
      hardwareConcurrency) ThreadRole.innerMaintenance
  if nodeType = .Node_UnitTest then base else base ++ [ThreadRole.gc]

/-- The session registry of Clients: `BDVs_` is a
`TransactionalMap<string, shared_ptr<BDV_Server_Object>>`; ids are opaque
server-generated tokens, modelled as the Nats below `nextId`. -/
structure ClientsRegistry where
  bdvs : List (Nat × BDV_Server_Object)
  nextId : Nat

namespace ClientsRegistry

/-- Every id stored in the registry was allocated earlier, i.e. is below
the allocation counter. -/
def WF (reg : ClientsRegistry) : Prop :=
  ∀ e ∈ reg.bdvs, e.1 < reg.nextId

/-- Modelled from the spec: the body of the fully constructed session a
`registerBDV` call inserts.  Construction builds the immutable dispatch
table (`buildMethodMap`, whose concrete entries live outside the header),
an empty pending-registration map, and the session callback. -/
def mkSession (id : Nat)
    (methodMap : List (String × (List String → Arguments → Arguments))) :
    BDV_Server_Object :=
  ⟨id, methodMap, [], some SocketCallback.mk0⟩

/-- Modelled from the spec: the body of `Clients::registerBDV` (declared
at line 248) is not in the header.  Spec: allocates a new session id,
constructs a Session, inserts into the registry, returns the id. -/
def registerBDV (reg : ClientsRegistry)
    (methodMap : List (String × (List String → Arguments → Arguments))) :
    Nat × ClientsRegistry :=
  (reg.nextId,
    ⟨assocInsert reg.nextId (mkSession reg.nextId methodMap) reg.bdvs,
      reg.nextId + 1⟩)

/-- Modelled from the spec: the body of `Clients::get` (declared at line
245) is not in the header.  Spec: the registry lookup for a session id. -/
def get (reg : ClientsRegistry) (id : Nat) : Option BDV_Server_Object :=
  assocLookup id reg.bdvs

/-- Modelled from the spec: the body of `Clients::unregisterBDV`
(declared at line 249) is not in the header.  Spec: removes the session
from the registry (and halts its threads). -/
def unregisterBDV (reg : ClientsRegistry) (id : Nat) : ClientsRegistry :=
  ⟨assocErase id reg.bdvs, reg.nextId⟩

/-- Modelled from the spec: the garbage collector evicts a session whose
callback went dead by removing it from the registry, the same removal as
`unregisterBDV`. -/
def gcEvict (reg : ClientsRegistry) (id : Nat) : ClientsRegistry :=
  reg.unregisterBDV id

end ClientsRegistry

/-- The registry mutations that can run between a `registerBDV` and a
later lookup. -/
inductive RegistryOp where
  | register
      (methodMap : List (String × (List String → Arguments → Arguments)))
  | unregister (id : Nat)
  | gcEvict (id : Nat)

/-- Apply one registry mutation. -/
def applyOp (reg : ClientsRegistry) : RegistryOp → ClientsRegistry
  | .register m => (reg.registerBDV m).2
  | .unregister id => reg.unregisterBDV id
  | .gcEvict id => reg.gcEvict id

/-- Apply a sequence of registry mutations, oldest first. -/
def applyOps (reg : ClientsRegistry) : List RegistryOp → ClientsRegistry
  | [] => reg
  | op :: ops => applyOps (applyOp reg op) ops

/-- True when the mutation removes the given id (an `unregisterBDV` or a
GC eviction of exactly that session). -/
def RegistryOp.removes (op : RegistryOp) (id : Nat) : Prop :=
  op = .unregister id ∨ op = .gcEvict id

/-- Whole-orchestrator state for the shutdown claim: the registry, the
`run_` flag, the orchestrator threads not yet joined, and how many times
the externally supplied `fcgiShutdownCallback_` has been invoked. -/
structure ClientsState where
  registry : ClientsRegistry
  run : Bool
  controlThreads : List ThreadRole
  shutdownCallbackCalls : Nat

/-- Modelled from the spec: the body of `Clients::shutdown` (declared at
line 250) is not in the header.  Spec: flips to ShuttingDown (clears the
run flag), joins all orchestrator threads, unregisters every remaining
session, and invokes the externally supplied shutdown callback. -/
def ClientsState.shutdown (s : ClientsState) : ClientsState :=
  let s1 := { s with run := false }
  let s2 := { s1 with controlThreads := [] }
  let s3 := { s2 with
    registry := ⟨[], s2.registry.nextId⟩ }
  { s3 with shutdownCallbackCalls := s3.shutdownCallbackCalls + 1 }

/-! ## Part 2: lemmas and theorems -/

lemma SocketCallback.isValid_true (cb : SocketCallback) :
    cb.isValid true =
      (if (cb.count + 1) % UINT_MOD ≥ CALLBACK_EXPIRE_COUNT then false
        else true,
        ⟨(cb.count + 1) % UINT_MOD⟩) := by
  unfold SocketCallback.isValid
  by_cases h : (cb.count + 1) % UINT_MOD ≥ CALLBACK_EXPIRE_COUNT <;>
    simp [h]

lemma SocketCallback.nthCallResult_eq (n : Nat) :
    SocketCallback.nthCallResult n =
      ((SocketCallback.isValidRuns (n - 1)).isValid true).1 := rfl

lemma SocketCallback.isValidRuns_count (n : Nat) :
    (SocketCallback.isValidRuns n).count = n % UINT_MOD := by
  induction n with
  | zero => rfl
  | succ n ih =>
    show (((SocketCallback.isValidRuns n).isValid true).2).count =
      (n + 1) % UINT_MOD
    rw [SocketCallback.isValid_true]
    simp only [ih, UINT_MOD]
    omega

/-- C1, counterexample.  The liveness counter is a C++ `unsigned`, so
`count_.fetch_add(1)` wraps around at 2^32: on a fresh callback, the
2^32-th consecutive lock-acquiring `isValid()` call computes a wrapped
counter of 0 and returns true, although 2^32 ≥ 5 lock-acquiring calls have
happened with no intervening `resetCounter()` — the claim says that call
must return false. -/
theorem C1_counterexample :
    5 ≤ UINT_MOD ∧ SocketCallback.nthCallResult UINT_MOD = true := by
  constructor
  · decide
  · rw [SocketCallback.nthCallResult_eq, SocketCallback.isValid_true,
      SocketCallback.isValidRuns_count]
    simp only [UINT_MOD, CALLBACK_EXPIRE_COUNT]
    decide

/-- C1, amended.  For a SocketCallback: (1) an `isValid()` call that fails
to acquire the probe lock returns true and leaves the counter unchanged;
(2) a call that acquires the lock increments the unsigned counter (mod
2^32) and returns false exactly when the incremented counter has reached
CALLBACK_EXPIRE_COUNT = 5; (3) hence, starting from a fresh callback
(counter zero), the n-th consecutive lock-acquiring call with no
intervening `resetCounter()` returns false for every n with
5 ≤ n < 2^32 (beyond that the unsigned counter wraps around). -/
theorem C1_isValid_expiry :
    (∀ cb : SocketCallback, cb.isValid false = (true, cb)) ∧
    (∀ cb : SocketCallback,
      (cb.isValid true).2.count = (cb.count + 1) % UINT_MOD ∧
      ((cb.isValid true).1 = false ↔
        (cb.count + 1) % UINT_MOD ≥ CALLBACK_EXPIRE_COUNT)) ∧
    (∀ n : Nat, 5 ≤ n → n < UINT_MOD →
      SocketCallback.nthCallResult n = false) := by
  refine ⟨fun cb => rfl, fun cb => ?_, fun n h5 hM => ?_⟩
  · rw [SocketCallback.isValid_true]
    refine ⟨rfl, ?_⟩
    by_cases h : (cb.count + 1) % UINT_MOD ≥ CALLBACK_EXPIRE_COUNT <;>
      simp [h]
  · rw [SocketCallback.nthCallResult_eq, SocketCallback.isValid_true,
      SocketCallback.isValidRuns_count]
    have h : ((n - 1) % UINT_MOD + 1) % UINT_MOD = n := by
      simp only [UINT_MOD] at *
      omega
    rw [h]
    simp [CALLBACK_EXPIRE_COUNT, h5]

/-- C1, witness for the amended claim at n = 5: the 5th consecutive
lock-acquiring call on a fresh callback returns false. -/
theorem C1_isValid_expiry_witness :
    5 ≤ 5 ∧ 5 < UINT_MOD ∧ SocketCallback.nthCallResult 5 = false :=
  ⟨by decide, by decide,
    C1_isValid_expiry.2.2 5 (by decide) (by decide)⟩

/-- C7.  `resetCounter()` stores zero: for every callback state it yields
exactly the freshly constructed state; it is idempotent; and after a
reset the next 4 lock-acquiring `isValid()` calls all return true. -/
theorem C7_resetCounter_restores_fresh :
    (∀ cb : SocketCallback, cb.resetCounter = SocketCallback.mk0) ∧
    (∀ cb : SocketCallback,
      cb.resetCounter.resetCounter = cb.resetCounter) ∧
    (∀ cb : SocketCallback, ∀ i : Nat, 1 ≤ i → i ≤ 4 →
      ((cb.resetCounter.isValidRunsFrom (i - 1)).isValid true).1 = true) := by
  refine ⟨fun cb => rfl, fun cb => rfl, fun cb i h1 h4 => ?_⟩
  have hr : cb.resetCounter = SocketCallback.mk0 := rfl
  rw [hr]
  interval_cases i <;> decide

/-- C7, witness at a concrete dirty counter state (count = 3) and i = 4:
the 4th lock-acquiring call after a reset still returns true. -/
theorem C7_resetCounter_witness :
    1 ≤ 4 ∧ 4 ≤ 4 ∧
    (((SocketCallback.mk 3).resetCounter.isValidRunsFrom (4 - 1)).isValid
      true).1 = true :=
  ⟨by decide, by decide,
    C7_resetCounter_restores_fresh.2.2 (SocketCallback.mk 3) 4
      (by decide) (by decide)⟩

/-- C2.  Evaluation of the constructor's thread-count computation at a
full-indexing configuration (supernode database, non-unit-test node,
hardware parallelism 8): line 231 compares instead of assigning, so the
code starts 2 inner maintenance threads where the spec (and the evident
intent of the line) calls for 8. -/
theorem C2_innerThreadCount_code_bug :
    clientsInnerThreadCount .ARMORY_DB_SUPER .Node_BTC 8 = 2 ∧
    specInnerThreadCount .ARMORY_DB_SUPER .Node_BTC 8 = 8 ∧
    (clientsControlThreads .ARMORY_DB_SUPER .Node_BTC 8).count
      ThreadRole.innerMaintenance = 2 := by
  refine ⟨rfl, rfl, ?_⟩
  decide

/-- C8.  The Clients constructor starts the garbage collector thread iff
the node type is not Node_UnitTest: the constructed control-thread list
holds exactly one gc thread in normal modes and none in unit-test mode,
for every database type and hardware parallelism. -/
theorem C8_gc_thread_iff_not_unitTest :
    ∀ (dbType : ARMORY_DB_TYPE) (nodeType : NODE_TYPE) (hw : Nat),
      (clientsControlThreads dbType nodeType hw).count ThreadRole.gc =
        if nodeType = .Node_UnitTest then 0 else 1 := by
  intro dbType nodeType hw
  cases nodeType <;>
    simp [clientsControlThreads, clientsInnerThreadCount,
      List.count_append, List.count_replicate]

/-- C6.  The modelled `Clients::shutdown` clears the run flag, leaves no
orchestrator thread unjoined, empties the registry, and invokes the
external shutdown callback exactly once (the invocation count rises by
exactly 1), whatever the prior state — in particular with any number of
sessions still registered. -/
theorem C6_shutdown_drains_and_notifies :
    ∀ s : ClientsState,
      s.shutdown.run = false ∧
      s.shutdown.controlThreads = [] ∧
      s.shutdown.registry.bdvs = [] ∧
      s.shutdown.shutdownCallbackCalls = s.shutdownCallbackCalls + 1 :=
  fun _ => ⟨rfl, rfl, rfl, rfl⟩

/-- C10.  `BDV_Server_Object::resetCounter` checks `cb_` for null before
use: with no callback attached it is a no-op that dereferences nothing
(the none branch of the match returns the session unchanged), and with a
callback attached it resets exactly that callback. -/
theorem C10_resetCounter_null_safe :
    (∀ bdv : BDV_Server_Object, bdv.cb = none →
      bdv.resetCounter = bdv) ∧
    (∀ (bdv : BDV_Server_Object) (c : SocketCallback), bdv.cb = some c →
      bdv.resetCounter = { bdv with cb := some c.resetCounter }) := by
  constructor
  · intro bdv h
    unfold BDV_Server_Object.resetCounter
    rw [h]
  · intro bdv c h
    unfold BDV_Server_Object.resetCounter
    rw [h]

/-- C10, witness: a session with no attached callback (as for
internal/unit-test sessions) is returned unchanged. -/
theorem C10_resetCounter_witness :
    (⟨7, [], [], none⟩ : BDV_Server_Object).cb = none ∧
    (⟨7, [], [], none⟩ : BDV_Server_Object).resetCounter =
      ⟨7, [], [], none⟩ :=
  ⟨rfl, C10_resetCounter_null_safe.1 ⟨7, [], [], none⟩ rfl⟩

/-- C4.  `executeCommand` on a method absent from the dispatch table
returns the unknown-method error outcome — a total computation that
invokes no handler (the outcome is fixed by the lookup failure alone) —
and on a method present in the table returns exactly the mapped handler
applied to ids and args. -/
theorem C4_executeCommand_dispatch :
    (∀ (bdv : BDV_Server_Object) (method : String) (ids : List String)
        (args : Arguments),
      assocLookup method bdv.methodMap = none →
        bdv.executeCommand method ids args =
          CommandOutcome.unknownMethodError method) ∧
    (∀ (bdv : BDV_Server_Object) (method : String) (ids : List String)
        (args : Arguments)
        (handler : List String → Arguments → Arguments),
      assocLookup method bdv.methodMap = some handler →
        bdv.executeCommand method ids args =
          CommandOutcome.result (handler ids args)) := by
  constructor
  · intro bdv method ids args h
    unfold BDV_Server_Object.executeCommand
    rw [h]
  · intro bdv method ids args handler h
    unfold BDV_Server_Object.executeCommand
    rw [h]

/-- C4, witness on a session whose table maps only the method named in
the string below: an unregistered method yields the unknown-method error
and the registered one invokes its handler. -/
theorem C4_executeCommand_witness :
    assocLookup "noSuchMethod"
        [("echoArgs", fun (_ : List String) (a : Arguments) => a)] =
      none ∧
    (⟨1, [("echoArgs", fun _ a => a)], [], none⟩ :
        BDV_Server_Object).executeCommand "noSuchMethod" [] ⟨[]⟩ =
      CommandOutcome.unknownMethodError "noSuchMethod" ∧
    (⟨1, [("echoArgs", fun _ a => a)], [], none⟩ :
        BDV_Server_Object).executeCommand "echoArgs" ["id0"] ⟨["x"]⟩ =
      CommandOutcome.result ⟨["x"]⟩ :=
  ⟨rfl,
    C4_executeCommand_dispatch.1
      ⟨1, [("echoArgs", fun _ a => a)], [], none⟩ "noSuchMethod" [] ⟨[]⟩
      rfl,
    C4_executeCommand_dispatch.2
      ⟨1, [("echoArgs", fun _ a => a)], [], none⟩ "echoArgs" ["id0"]
      ⟨["x"]⟩ (fun _ a => a) rfl⟩

lemma assocLookup_insert_self {κ α : Type} [DecidableEq κ] (k : κ)
    (v : α) (m : List (κ × α)) :
    assocLookup k (assocInsert k v m) = some v := by
  simp [assocInsert, assocLookup]

lemma assocLookup_erase_ne {κ α : Type} [DecidableEq κ] (k k2 : κ)
    (m : List (κ × α)) (h : k2 ≠ k) :
    assocLookup k2 (assocErase k m) = assocLookup k2 m := by
  have hkk2 : ¬ k = k2 := fun hk => h hk.symm
  induction m with
  | nil => rfl
  | cons e rest ih =>
    by_cases he : e.1 = k
    · simp [assocErase, assocLookup, he, hkk2, h, ih]
    · by_cases he2 : e.1 = k2 <;>
        simp [assocErase, assocLookup, he, he2, hkk2, h, ih]

lemma assocLookup_insert_ne {κ α : Type} [DecidableEq κ] (k k2 : κ)
    (v : α) (m : List (κ × α)) (h : k2 ≠ k) :
    assocLookup k2 (assocInsert k v m) = assocLookup k2 m := by
  have hne : ¬ k = k2 := fun hk => h hk.symm
  simp [assocInsert, assocLookup, hne, assocLookup_erase_ne k k2 m h]

lemma assocKeyCount_erase_self {κ α : Type} [DecidableEq κ] (k : κ)
    (m : List (κ × α)) : assocKeyCount k (assocErase k m) = 0 := by
  induction m with
  | nil => rfl
  | cons e rest ih =>
    by_cases he : e.1 = k <;>
      simp [assocErase, assocKeyCount, he, List.countP_cons] at ih ⊢ <;>
      simpa [assocKeyCount] using ih

lemma assocKeyCount_insert_self {κ α : Type} [DecidableEq κ] (k : κ)
    (v : α) (m : List (κ × α)) :
    assocKeyCount k (assocInsert k v m) = 1 := by
  simp [assocInsert, assocKeyCount, List.countP_cons]
  simpa [assocKeyCount] using assocKeyCount_erase_self k m

/-- C5.  On a non-empty id, `registerWallet` and `registerLockbox` return
true and replace the pending-registration map entry for that id with the
freshly built record of the right kind, leaving exactly one record for
the id and every other id's entry untouched; on the malformed empty id
they return false and change nothing. -/
theorem C5_registerWallet_pending_record :
    (∀ (bdv : BDV_Server_Object) (sav : List BinaryData) (id : String)
        (isNew : Bool), id ≠ "" →
      (bdv.registerWallet sav id isNew).1 = true ∧
      assocLookup id (bdv.registerWallet sav id isNew).2.wltRegMap =
        some ⟨sav, id, isNew, .TypeWallet⟩ ∧
      assocKeyCount id (bdv.registerWallet sav id isNew).2.wltRegMap = 1 ∧
      (∀ k : String, k ≠ id →
        assocLookup k (bdv.registerWallet sav id isNew).2.wltRegMap =
          assocLookup k bdv.wltRegMap)) ∧
    (∀ (bdv : BDV_Server_Object) (sav : List BinaryData) (id : String)
        (isNew : Bool), id ≠ "" →
      (bdv.registerLockbox sav id isNew).1 = true ∧
      assocLookup id (bdv.registerLockbox sav id isNew).2.wltRegMap =
        some ⟨sav, id, isNew, .TypeLockbox⟩ ∧
      assocKeyCount id (bdv.registerLockbox sav id isNew).2.wltRegMap
        = 1) ∧
    (∀ (bdv : BDV_Server_Object) (sav : List BinaryData) (isNew : Bool),
      bdv.registerWallet sav "" isNew = (false, bdv) ∧
      bdv.registerLockbox sav "" isNew = (false, bdv)) := by
  refine ⟨fun bdv sav id isNew h => ?_, fun bdv sav id isNew h => ?_,
    fun bdv sav isNew => ?_⟩
  · unfold BDV_Server_Object.registerWallet
      BDV_Server_Object.registerWalletKind
    rw [if_neg h]
    exact ⟨rfl, assocLookup_insert_self id _ bdv.wltRegMap,
      assocKeyCount_insert_self id _ bdv.wltRegMap,
      fun k hk => assocLookup_insert_ne id k _ bdv.wltRegMap hk⟩
  · unfold BDV_Server_Object.registerLockbox
      BDV_Server_Object.registerWalletKind
    rw [if_neg h]
    exact ⟨rfl, assocLookup_insert_self id _ bdv.wltRegMap,
      assocKeyCount_insert_self id _ bdv.wltRegMap⟩
  · constructor <;> rfl

/-- C5, witness on a session that already holds a record for the id: the
call succeeds and afterwards exactly one record (the new one) exists for
that id. -/
theorem C5_registerWallet_witness :
    "wlt1" ≠ "" ∧
    ((⟨2, [], [("wlt1", ⟨[], "wlt1", false, .TypeWallet⟩)], none⟩ :
        BDV_Server_Object).registerWallet [[7]] "wlt1" true).1 = true ∧
    assocKeyCount "wlt1"
      ((⟨2, [], [("wlt1", ⟨[], "wlt1", false, .TypeWallet⟩)], none⟩ :
        BDV_Server_Object).registerWallet [[7]] "wlt1" true).2.wltRegMap
      = 1 := by
  have h := C5_registerWallet_pending_record.1
    ⟨2, [], [("wlt1", ⟨[], "wlt1", false, .TypeWallet⟩)], none⟩
    [[7]] "wlt1" true (by decide)
  exact ⟨by decide, h.1, h.2.2.1⟩

lemma assocLookup_erase_self {κ α : Type} [DecidableEq κ] (k : κ)
    (m : List (κ × α)) : assocLookup k (assocErase k m) = none := by
  induction m with
  | nil => rfl
  | cons e rest ih =>
    by_cases he : e.1 = k <;> simp [assocErase, assocLookup, he, ih]

lemma mem_of_assocErase {κ α : Type} [DecidableEq κ] (k : κ) (e : κ × α)
    (m : List (κ × α)) : e ∈ assocErase k m → e ∈ m := by
  induction m with
  | nil => intro h; exact h
  | cons e2 rest ih =>
    intro h
    by_cases he : e2.1 = k
    · simp only [assocErase, if_pos he] at h
      exact List.mem_cons_of_mem e2 (ih h)
    · simp only [assocErase, if_neg he, List.mem_cons] at h
      rcases h with rfl | h
      · exact List.mem_cons_self e rest
      · exact List.mem_cons_of_mem e2 (ih h)

lemma assocLookup_some_key_mem {κ α : Type} [DecidableEq κ] (k : κ)
    (m : List (κ × α)) (v : α) :
    assocLookup k m = some v → ∃ e, e ∈ m ∧ e.1 = k := by
  induction m with
  | nil => intro h; exact absurd h (by simp [assocLookup])
  | cons e rest ih =>
    intro h
    by_cases he : e.1 = k
    · exact ⟨e, List.mem_cons_self e rest, he⟩
    · simp only [assocLookup, if_neg he] at h
      obtain ⟨e2, hmem, hkey⟩ := ih h
      exact ⟨e2, List.mem_cons_of_mem e hmem, hkey⟩

lemma ClientsRegistry.WF_registerBDV (reg : ClientsRegistry)
    (m : List (String × (List String → Arguments → Arguments)))
    (hwf : reg.WF) : ((reg.registerBDV m).2).WF := by
  intro e he
  have he2 : e ∈ (reg.nextId, ClientsRegistry.mkSession reg.nextId m) ::
      assocErase reg.nextId reg.bdvs := he
  show e.1 < reg.nextId + 1
  rcases List.mem_cons.mp he2 with rfl | hmem
  · exact Nat.lt_succ_self _
  · exact Nat.lt_succ_of_lt (hwf e (mem_of_assocErase _ e _ hmem))

lemma ClientsRegistry.WF_unregisterBDV (reg : ClientsRegistry) (id : Nat)
    (hwf : reg.WF) : (reg.unregisterBDV id).WF := by
  intro e he
  exact hwf e (mem_of_assocErase _ e _ he)

lemma ClientsRegistry.get_lt_nextId (reg : ClientsRegistry) (x : Nat)
    (s : BDV_Server_Object) (hwf : reg.WF) (hget : reg.get x = some s) :
    x < reg.nextId := by
  obtain ⟨e, hmem, hkey⟩ := assocLookup_some_key_mem x reg.bdvs s hget
  exact hkey ▸ hwf e hmem

/-- C3.  Registry lifecycle of a session id: (1) immediately after
`registerBDV` returns id X, `get X` yields the fully constructed session
inserted for X, and the registry stays well-formed; (2) `get X` keeps
yielding that same session across any further sequence of registrations,
unregistrations of other ids and GC evictions of other ids — i.e. until
an `unregisterBDV X` or a GC eviction of X occurs; (3) after
`unregisterBDV X` or a GC eviction of X, `get X` reports the session
absent. -/
theorem C3_registerBDV_get_lifecycle :
    (∀ (reg : ClientsRegistry)
        (m : List (String × (List String → Arguments → Arguments))),
      reg.WF →
      (reg.registerBDV m).2.get (reg.registerBDV m).1 =
        some (ClientsRegistry.mkSession (reg.registerBDV m).1 m) ∧
      (reg.registerBDV m).2.WF) ∧
    (∀ (reg : ClientsRegistry) (x : Nat) (s : BDV_Server_Object)
        (ops : List RegistryOp),
      reg.WF → reg.get x = some s → (∀ op ∈ ops, ¬ op.removes x) →
      (applyOps reg ops).get x = some s) ∧
    (∀ (reg : ClientsRegistry) (x : Nat),
      (reg.unregisterBDV x).get x = none ∧
      (reg.gcEvict x).get x = none) := by
  refine ⟨fun reg m hwf => ?_, fun reg x s ops => ?_, fun reg x => ?_⟩
  · exact ⟨assocLookup_insert_self reg.nextId _ reg.bdvs,
      ClientsRegistry.WF_registerBDV reg m hwf⟩
  · induction ops generalizing reg with
    | nil => intro _ hget _; exact hget
    | cons op ops ih =>
      intro hwf hget hclean
      have hx : x < reg.nextId :=
        ClientsRegistry.get_lt_nextId reg x s hwf hget
      show (applyOps (applyOp reg op) ops).get x = some s
      have hclean2 : ∀ op2 ∈ ops, ¬ op2.removes x :=
        fun op2 h2 => hclean op2 (List.mem_cons_of_mem op h2)
      cases op with
      | register m =>
        exact ih ((reg.registerBDV m).2)
          (ClientsRegistry.WF_registerBDV reg m hwf)
          ((assocLookup_insert_ne reg.nextId x _ reg.bdvs
            (Nat.ne_of_lt hx)).trans hget) hclean2
      | unregister id =>
        have hne : x ≠ id := by
          intro hxid
          exact hclean _ (List.mem_cons_self _ ops)
            (Or.inl (by rw [hxid]))
        exact ih (reg.unregisterBDV id)
          (ClientsRegistry.WF_unregisterBDV reg id hwf)
          ((assocLookup_erase_ne id x reg.bdvs hne).trans hget) hclean2
      | gcEvict id =>
        have hne : x ≠ id := by
          intro hxid
          exact hclean _ (List.mem_cons_self _ ops)
            (Or.inr (by rw [hxid]))
        exact ih (reg.gcEvict id)
          (ClientsRegistry.WF_unregisterBDV reg id hwf)
          ((assocLookup_erase_ne id x reg.bdvs hne).trans hget) hclean2
  · exact ⟨assocLookup_erase_self x reg.bdvs,
      assocLookup_erase_self x reg.bdvs⟩

/-- C3, witness: a one-session registry holding id 0 survives an
unregistration of the unrelated id 3 with `get 0` unchanged. -/
theorem C3_registerBDV_witness :
    ClientsRegistry.WF ⟨[(0, ClientsRegistry.mkSession 0 [])], 1⟩ ∧
    (⟨[(0, ClientsRegistry.mkSession 0 [])], 1⟩ : ClientsRegistry).get 0 =
      some (ClientsRegistry.mkSession 0 []) ∧
    (∀ op ∈ [RegistryOp.unregister 3], ¬ op.removes 0) ∧
    (applyOps ⟨[(0, ClientsRegistry.mkSession 0 [])], 1⟩
        [RegistryOp.unregister 3]).get 0 =
      some (ClientsRegistry.mkSession 0 []) := by
  have hwf : ClientsRegistry.WF ⟨[(0, ClientsRegistry.mkSession 0 [])], 1⟩ := by
    intro e he
    rw [List.mem_singleton] at he
    subst he
    exact Nat.one_pos
  have hclean : ∀ op ∈ [RegistryOp.unregister 3], ¬ op.removes 0 := by
    intro op hop
    rw [List.mem_singleton] at hop
    subst hop
    intro hrem
    rcases hrem with h | h <;> simp at h
  exact ⟨hwf, rfl, hclean,
    C3_registerBDV_get_lifecycle.2.1 ⟨[(0, ClientsRegistry.mkSession 0 [])], 1⟩
      0 (ClientsRegistry.mkSession 0 []) [RegistryOp.unregister 3]
      hwf rfl hclean⟩

/-- C9.  In every state the destructor interleaving can reach, completed
destruction (the probe mutex acquired at line 77) implies that
`Callback::shutdown()` was already signaled — the unconditional blocking
lock comes strictly after the shutdown signal — and that the destructor,
not a responder, holds the probe mutex: destruction never finishes while
a responder is still executing under the probe lock. -/
theorem C9_dtor_excludes_responder :
    ∀ s : SCDtorState, SCDtorReach s → s.phase = DtorPhase.lockedDone →
      s.shutdownSignaled = true ∧ s.holder = MutexHolder.destructor := by
  have main : ∀ s : SCDtorState, SCDtorReach s →
      (s.phase ≠ DtorPhase.started → s.shutdownSignaled = true) ∧
      (s.phase = DtorPhase.lockedDone →
        s.holder = MutexHolder.destructor) := by
    intro s hr
    induction hr with
    | initFree => exact ⟨fun h => absurd rfl h, fun h => absurd h (by decide)⟩
    | initHeld => exact ⟨fun h => absurd rfl h, fun h => absurd h (by decide)⟩
    | step s t hr hst ih =>
      cases hst with
      | signal f h =>
        exact ⟨fun _ => rfl, fun hph => by simp at hph⟩
      | lock f =>
        exact ⟨fun _ => ih.1 (by simp), fun _ => rfl⟩
      | responderAcquire p f =>
        exact ⟨ih.1, fun hph => by have hh := ih.2 hph; simp at hh⟩
      | responderRelease p f =>
        exact ⟨ih.1, fun hph => by have hh := ih.2 hph; simp at hh⟩
  intro s hr hph
  refine ⟨(main s hr).1 ?_, (main s hr).2 hph⟩
  rw [hph]
  decide

/-- C9, witness: the canonical completed run — destructor signals
shutdown from the free-mutex initial state, then acquires the probe
mutex — ends signaled with the destructor holding the mutex. -/
theorem C9_dtor_witness :
    SCDtorReach ⟨DtorPhase.lockedDone, true, MutexHolder.destructor⟩ ∧
    (⟨DtorPhase.lockedDone, true, MutexHolder.destructor⟩ :
      SCDtorState).shutdownSignaled = true ∧
    (⟨DtorPhase.lockedDone, true, MutexHolder.destructor⟩ :
      SCDtorState).holder = MutexHolder.destructor := by
  have hreach :
      SCDtorReach ⟨DtorPhase.lockedDone, true, MutexHolder.destructor⟩ :=
    SCDtorReach.step _ _
      (SCDtorReach.step _ _ SCDtorReach.initFree
        (SCDtorStep.signal false MutexHolder.nobody))
      (SCDtorStep.lock true)
  exact ⟨hreach,
    (C9_dtor_excludes_responder _ hreach rfl).1,
    (C9_dtor_excludes_responder _ hreach rfl).2⟩
